import Mathlib

/-!
Shallow embedding of the payroll aggregation engine of the attendance
application (`payroll/services.py`, `payroll/payroll_calculation.py`,
`payroll/models.py`, `payroll/management/commands/payroll_recalc_daily.py`).

Durations (`datetime.timedelta`) are modelled as natural numbers of seconds
(every duration reaching the code modelled here has been clamped at zero),
`decimal.Decimal` values as exact rationals, and `Decimal.quantize` as the
corresponding explicit rounding on `ℚ`.  Local timestamps are modelled as a
civil date (its proleptic-Gregorian ordinal, an integer, so that Python's
`weekday()` is `(ordinal - 1) % 7` with Monday = 0) together with a
second-of-day.
-/

namespace Payroll

/-- `Decimal.quantize(Decimal("1"), rounding=ROUND_HALF_UP)`: round to the
nearest integer, ties away from zero. -/
def roundHalfUp (x : ℚ) : ℤ :=
  if x < 0 then -⌊-x + 1/2⌋ else ⌊x + 1/2⌋

/-- `Decimal.quantize` with the default context rounding `ROUND_HALF_EVEN`:
round to the nearest integer, ties to the even neighbour. -/
def roundHalfEven (x : ℚ) : ℤ :=
  if x - ⌊x⌋ < 1/2 then ⌊x⌋
  else if (1 : ℚ)/2 < x - ⌊x⌋ then ⌊x⌋ + 1
  else if ⌊x⌋ % 2 = 0 then ⌊x⌋ else ⌊x⌋ + 1

/-- `x.quantize(Decimal("0.0001"))` (4 decimal places, default half-even). -/
def quant4he (x : ℚ) : ℚ := (roundHalfEven (x * 10000) : ℚ) / 10000

/-- `_to_decimal` in `payroll_calculation.py`: quantize to 2 decimal places,
`ROUND_HALF_UP`. -/
def toDecimal2 (x : ℚ) : ℚ := (roundHalfUp (x * 100) : ℚ) / 100

/-- `_yen_floor` (`services.py`) / `yen_floor` (`payroll_recalc_daily.py`):
`Decimal.quantize(Decimal("1"), ROUND_DOWN)`, truncation toward zero. -/
def yenFloor (x : ℚ) : ℤ := if x < 0 then -⌊-x⌋ else ⌊x⌋

/-- `_hours` in `services.py`: timedelta seconds → hours, quantized to 4
decimal places with the context default rounding. -/
def hoursOfSeconds (s : ℕ) : ℚ := quant4he ((s : ℚ) / 3600)

/-- `_round_qtr` in `build_monthly_payroll`:
`(hours * 4).quantize(Decimal("0"), ROUND_HALF_UP) / 4`. -/
def roundQtr (h : ℚ) : ℚ := (roundHalfUp (h * 4) : ℚ) / 4

/-- `hours_qtr_decimal` in `payroll_recalc_daily.py`: timedelta seconds →
hours rounded to the nearest quarter hour, half up (no pre-quantization). -/
def hoursQtrCmd (s : ℕ) : ℚ := roundQtr ((s : ℚ) / 3600)

/-! ## Duration aggregation (`_aggregate_durations`, `payroll_recalc_daily`) -/

/-- One category of worked time. -/
inductive Kind where
  | normal
  | special
  | holiday
deriving DecidableEq, Repr

/-- Per-day duration buckets in seconds (`daily[day]` in
`_aggregate_durations`, `per_day[d]` in `payroll_recalc_daily.py`). -/
structure DayBuckets where
  normal : ℕ
  special : ℕ
  holiday : ℕ
deriving DecidableEq, Repr

def DayBuckets.total (b : DayBuckets) : ℕ := b.normal + b.special + b.holiday

/-- The flat daily 15-minute (900 s) deduction loop: take from `normal`,
then `special`, then `holiday`, each at most the remaining allowance. -/
def flatDeduct (b : DayBuckets) : DayBuckets :=
  let take1 := min b.normal 900
  let r1 := 900 - take1
  let take2 := min b.special r1
  let r2 := r1 - take2
  let take3 := min b.holiday r2
  ⟨b.normal - take1, b.special - take2, b.holiday - take3⟩

/-- The raw `closing_day` attribute as read through `getattr`: numeric, a
non-numeric value (`int()` raises `ValueError`), or absent/`None`
(`int()` raises `TypeError`). -/
inductive ClosingInput where
  | missing
  | nonNumeric
  | num (n : ℤ)
deriving DecidableEq, Repr

/-- `PayrollSetting` (payroll/models.py) as read by the aggregation code.
Dates are proleptic-Gregorian ordinals (as in `datetime.date.toordinal`);
times of day are seconds after midnight. -/
structure PayrollSetting where
  closing : ClosingInput
  specialRate : ℚ
  employmentInsRate : ℚ
  newYearFrom : Option ℤ
  newYearTo : Option ℤ
  bonFrom : Option ℤ
  bonTo : Option ℤ
  gwFrom : Option ℤ
  gwTo : Option ℤ
  weeklyHolidays : List ℤ
  lunchBreakFrom : ℕ
  lunchBreakTo : ℕ
deriving DecidableEq, Repr

/-- `_closing_day` on a raw attribute value. -/
def closingDayRaw (c : ClosingInput) : ℤ :=
  match c with
  | .missing => 31
  | .nonNumeric => 31
  | .num n => min (max n 1) 31

/-- `_closing_day(company)`: an absent `PayrollSetting` row behaves like a
missing attribute (`int(None)` raises, caught, 31). -/
def closingDayOf (company : Option PayrollSetting) : ℤ :=
  match company with
  | none => closingDayRaw .missing
  | some c => closingDayRaw c.closing

/-- A `SpecialPeriod` row: named date range with start/end ordinals. -/
structure SpecialPeriodRow where
  start : ℤ
  stop : ℤ
deriving DecidableEq, Repr

/-- `_collect_special_ranges`: `SpecialPeriod` rows overlapping the period,
plus the company's New Year and Bon ranges when both endpoints are set.
(The company's `gw_from`/`gw_to` fields are not consulted here.) -/
def collectSpecialRanges (firstDay lastDay : ℤ) (rows : List SpecialPeriodRow)
    (company : Option PayrollSetting) : List (ℤ × ℤ) :=
  let fromRows := (rows.filter fun sp => decide (sp.start ≤ lastDay ∧ firstDay ≤ sp.stop)).map
    fun sp => (sp.start, sp.stop)
  match company with
  | none => fromRows
  | some c =>
    let pair : Option ℤ → Option ℤ → List (ℤ × ℤ) := fun s e =>
      match s, e with
      | some s, some e => [(s, e)]
      | _, _ => []
    fromRows ++ pair c.newYearFrom c.newYearTo ++ pair c.bonFrom c.bonTo

/-- `_weekly_holidays`: the configured weekday set (empty with no company). -/
def weeklyHolidaysOf (company : Option PayrollSetting) : List ℤ :=
  match company with
  | none => []
  | some c => c.weeklyHolidays

/-- A timezone-local timestamp: civil date ordinal plus second of day.
Python's `weekday()` is `(ordinal - 1) % 7`, Monday = 0. -/
structure LocalDT where
  day : ℤ
  sec : ℕ
deriving DecidableEq, Repr

def LocalDT.abs (t : LocalDT) : ℤ := t.day * 86400 + t.sec

def weekdayOfOrdinal (d : ℤ) : ℤ := (d - 1) % 7

/-- Category classification of the shift loop in `_aggregate_durations`:
by the check-in's civil date, special ranges first, then weekly holidays. -/
def classifyShift (ranges : List (ℤ × ℤ)) (wHolidays : List ℤ)
    (cin : LocalDT) : Kind :=
  if ∃ r ∈ ranges, r.1 ≤ cin.day ∧ cin.day ≤ r.2 then .special
  else if weekdayOfOrdinal cin.day ∈ wHolidays then .holiday
  else .normal

/-- Lunch-window overlap deduction of the shift loop: the lunch window is
placed on the check-in's civil date, its overlap with the shift is
subtracted, and a negative result is clamped to zero. -/
def adjustedShiftSeconds (lunchFrom lunchTo : ℕ) (cin cout : LocalDT) : ℕ :=
  let lunchStart : ℤ := cin.day * 86400 + lunchFrom
  let lunchEnd : ℤ := cin.day * 86400 + lunchTo
  let dur : ℤ := cout.abs - cin.abs
  let overlapStart := max cin.abs lunchStart
  let overlapEnd := min cout.abs lunchEnd
  let dur' := if overlapStart < overlapEnd then dur - (overlapEnd - overlapStart) else dur
  (max dur' 0).toNat

def lunchFromOf (company : Option PayrollSetting) : ℕ :=
  match company with
  | none => 43200
  | some c => c.lunchBreakFrom

def lunchToOf (company : Option PayrollSetting) : ℕ :=
  match company with
  | none => 46800
  | some c => c.lunchBreakTo

def addToBucket (b : DayBuckets) (k : Kind) (td : ℕ) : DayBuckets :=
  match k with
  | .normal => { b with normal := b.normal + td }
  | .special => { b with special := b.special + td }
  | .holiday => { b with holiday := b.holiday + td }

def updateAssoc (daily : List (ℤ × DayBuckets)) (day : ℤ) (k : Kind)
    (td : ℕ) : List (ℤ × DayBuckets) :=
  match daily with
  | [] => [(day, addToBucket ⟨0, 0, 0⟩ k td)]
  | (d, b) :: rest =>
    if d = day then (d, addToBucket b k td) :: rest
    else (d, b) :: updateAssoc rest day k td

/-- `_add` in `_aggregate_durations`: skip non-positive durations, otherwise
create the day's zero bucket if absent and accumulate. -/
def addShift (daily : List (ℤ × DayBuckets)) (day : ℤ) (k : Kind)
    (td : ℕ) : List (ℤ × DayBuckets) :=
  if td = 0 then daily else updateAssoc daily day k td

/-- An (IN, OUT) pair as produced by `_iter_inout_pairs`. -/
structure Shift where
  cin : LocalDT
  cout : LocalDT
deriving DecidableEq, Repr

/-- The per-day bucket map built by the shift loop. -/
def buildDaily (shifts : List Shift) (ranges : List (ℤ × ℤ)) (wH : List ℤ)
    (lunchFrom lunchTo : ℕ) : List (ℤ × DayBuckets) :=
  shifts.foldl
    (fun daily sh =>
      addShift daily sh.cin.day (classifyShift ranges wH sh.cin)
        (adjustedShiftSeconds lunchFrom lunchTo sh.cin sh.cout))
    []

/-- Aggregated worked time per category, in seconds (`WorkDurations`). -/
structure WorkDurations where
  normal : ℕ
  special : ℕ
  holiday : ℕ
deriving DecidableEq, Repr

def WorkDurations.total (d : WorkDurations) : ℕ := d.normal + d.special + d.holiday

/-- `_aggregate_durations` from the shift-pair level: bucket each shift by
check-in date and category, apply the flat daily deduction, sum. -/
def aggregateDurations (shifts : List Shift) (rows : List SpecialPeriodRow)
    (company : Option PayrollSetting) (periodFirst periodLast : ℤ) : WorkDurations :=
  let ranges := collectSpecialRanges periodFirst periodLast rows company
  let wH := weeklyHolidaysOf company
  let daily := buildDaily shifts ranges wH (lunchFromOf company) (lunchToOf company)
  let deducted := daily.map fun p => (p.1, flatDeduct p.2)
  { normal := (deducted.map fun p => p.2.normal).sum
    special := (deducted.map fun p => p.2.special).sum
    holiday := (deducted.map fun p => p.2.holiday).sum }

/-! ## Period resolution (`_resolve_period`) -/

def isLeap (y : ℕ) : Bool := y % 4 = 0 && (y % 100 != 0 || y % 400 = 0)

def daysInMonth (y m : ℕ) : ℕ :=
  if m = 2 then (if isLeap y then 29 else 28)
  else if m = 4 ∨ m = 6 ∨ m = 9 ∨ m = 11 then 30
  else 31

/-- A civil date as held by a Python `datetime` (time parts are always
midnight in `_resolve_period`). -/
structure PyDate where
  year : ℕ
  month : ℕ
  day : ℕ
deriving DecidableEq, Repr

/-- Lexicographic comparison of civil dates. -/
def dateLt (a b : PyDate) : Prop :=
  a.year < b.year ∨ (a.year = b.year ∧
    (a.month < b.month ∨ (a.month = b.month ∧ a.day < b.day)))

instance (a b : PyDate) : Decidable (dateLt a b) := by
  unfold dateLt
  infer_instance

/-- `datetime.datetime(year, month, day, 0, 0)`: validates the ranges
(Python's `MINYEAR` is 1 and `MAXYEAR` is 9999) and raises `ValueError`
otherwise, modelled as `none`. -/
def mkDatetime (y m d : ℕ) : Option PyDate :=
  if 1 ≤ y ∧ y ≤ 9999 ∧ 1 ≤ m ∧ m ≤ 12 ∧ 1 ≤ d ∧ d ≤ daysInMonth y m then
    some ⟨y, m, d⟩
  else none

/-- `_resolve_period`: the half-open billing interval for (year, month),
`none` when a boundary `datetime` constructor would raise. -/
def resolvePeriod (year month : ℕ) (company : Option PayrollSetting) :
    Option (PyDate × PyDate) :=
  let day := closingDayOf company
  if 28 ≤ day then
    match mkDatetime year month 1,
        (if month = 12 then mkDatetime (year + 1) 1 1
         else mkDatetime year (month + 1) 1) with
    | some s, some e => some (s, e)
    | _, _ => none
  else
    let prevMonth := if month = 1 then 12 else month - 1
    let prevYear := if month = 1 then year - 1 else year
    match mkDatetime prevYear prevMonth (day.toNat + 1),
        mkDatetime year month (day.toNat + 1) with
    | some s, some e => some (s, e)
    | _, _ => none

/-! ## Money (`build_monthly_payroll`, `payroll_recalc_daily`, models) -/

/-- `attendance_app.Staff` wage fields used by `build_monthly_payroll`. -/
structure StaffPay where
  wageType : String
  hourlyRate : Option ℕ
  monthlySalary : Option ℕ
deriving DecidableEq, Repr

/-- `PayrollInfo` (payroll/models.py): nullable whole-yen amounts. -/
structure PayrollInfoRec where
  employmentInsured : Bool
  residentTax : Option ℕ
  withholdingTax : Option ℕ
  healthInsurance : Option ℕ
  pension : Option ℕ
  commuteAllowance : Option ℕ
deriving DecidableEq, Repr

/-- The money breakdown computed inside `build_monthly_payroll`. -/
structure PayBreakdownZ where
  base : ℤ
  special : ℤ
  holiday : ℤ
  commute : ℤ
  gross : ℤ
  employmentIns : ℤ
  residentTax : ℤ
  withholding : ℤ
  health : ℤ
  pension : ℤ
  net : ℤ
deriving DecidableEq, Repr

/-- `_yen_floor(getattr(info, field, 0) or 0)`: the whole-yen amount of one
nullable `PayrollInfo` field, 0 when the staff has no `PayrollInfo` row. -/
def infoYen (info : Option PayrollInfoRec) (f : PayrollInfoRec → Option ℕ) : ℤ :=
  match info with
  | none => yenFloor 0
  | some i => yenFloor (((f i).getD 0 : ℚ))

/-- Employment insurance in `build_monthly_payroll`: floor(gross × rate)
only when a `PayrollInfo` row exists, it is insured, and a company
configuration exists. -/
def employmentInsOf (info : Option PayrollInfoRec)
    (company : Option PayrollSetting) (gross : ℤ) : ℤ :=
  match info, company with
  | some i, some c =>
    if i.employmentInsured then yenFloor ((gross : ℚ) * c.employmentInsRate)
    else 0
  | _, _ => 0

/-- The money part of `build_monthly_payroll` (services.py, after
`_aggregate_durations`).  The `special_rate` setting is read into a local
there but contributes to no amount: the special and holiday components are
the literal constants 0 and, for hourly staff, the base component prices
the quarter-rounded **total** hours at the plain hourly rate. -/
def buildMoney (staff : StaffPay) (info : Option PayrollInfoRec)
    (company : Option PayrollSetting) (durs : WorkDurations)
    (includeCommuteInGross : Bool) : PayBreakdownZ :=
  let totalHours := roundQtr (hoursOfSeconds durs.total)
  let baseI : ℤ :=
    if staff.wageType = "hourly" then
      yenFloor ((staff.hourlyRate.getD 0 : ℚ) * totalHours)
    else
      yenFloor ((staff.monthlySalary.getD 0 : ℚ))
  let spI : ℤ := 0
  let holI : ℤ := 0
  let commuteI : ℤ := infoYen info (fun i => i.commuteAllowance)
  let coreGross := baseI + spI + holI
  let gross := coreGross + (if includeCommuteInGross then commuteI else 0)
  let employmentIns : ℤ := employmentInsOf info company gross
  let residentTax : ℤ := infoYen info (fun i => i.residentTax)
  let withholding : ℤ := infoYen info (fun i => i.withholdingTax)
  let health : ℤ := infoYen info (fun i => i.healthInsurance)
  let pension : ℤ := infoYen info (fun i => i.pension)
  let net := gross - (employmentIns + health + pension + residentTax + withholding)
  { base := baseI, special := spI, holiday := holI, commute := commuteI,
    gross := gross, employmentIns := employmentIns, residentTax := residentTax,
    withholding := withholding, health := health, pension := pension, net := net }

/-- The hourly-staff gross formula of `payroll_recalc_daily.py`
(lines 166–170): per-category quarter rounding, the special-rate multiplier
on the special and holiday amounts, a yen floor per category, summed. -/
def hourlyGrossCmd (rate mult : ℚ) (n s h : ℕ) : ℤ :=
  yenFloor (rate * hoursQtrCmd n) + yenFloor (rate * hoursQtrCmd s * mult) +
    yenFloor (rate * hoursQtrCmd h * mult)

/-- Modelled from the spec's hourly rule (spec §4.3), for comparison with
the source: round each category to the quarter hour, multiply by the rate,
multiply special and holiday additionally by the special-rate multiplier,
floor each category independently, and sum. -/
def hourlyGrossSpec (rate mult : ℚ) (d : WorkDurations) : ℤ :=
  yenFloor (rate * roundQtr (hoursOfSeconds d.normal)) +
    yenFloor (rate * roundQtr (hoursOfSeconds d.special) * mult) +
    yenFloor (rate * roundQtr (hoursOfSeconds d.holiday) * mult)

/-- A persisted `MonthlyPayroll` row (payroll/models.py).  Durations are
seconds; money fields are `PositiveIntegerField`s. -/
structure MonthlyPayrollRow where
  staffId : ℕ
  yearMonth : ℕ
  totalHours : ℕ
  normalHours : ℕ
  specialHours : ℕ
  holidayHours : ℕ
  grossPay : ℕ
  commuteAllowance : ℕ
  employmentInsurance : ℕ
  residentTax : ℕ
  withholdingTax : ℕ
  healthInsurance : ℕ
  pension : ℕ
deriving DecidableEq, Repr

/-- `MonthlyPayroll.social_insurance`. -/
def MonthlyPayrollRow.socialInsurance (r : MonthlyPayrollRow) : ℕ :=
  r.healthInsurance + r.pension

/-- `MonthlyPayroll.net_pay` (payroll/models.py lines 200–208). -/
def MonthlyPayrollRow.netPay (r : MonthlyPayrollRow) : ℤ :=
  (r.grossPay : ℤ) - (r.commuteAllowance + r.employmentInsurance +
    r.residentTax + r.withholdingTax + r.socialInsurance)

/-- The `defaults=` dictionary passed to `update_or_create` by
`build_monthly_payroll` (note: it carries no `normal_hours` entry). -/
structure PayrollDefaults where
  totalHours : ℕ
  specialHours : ℕ
  holidayHours : ℕ
  grossPay : ℕ
  commuteAllowance : ℕ
  employmentInsurance : ℕ
  residentTax : ℕ
  withholdingTax : ℕ
  healthInsurance : ℕ
  pension : ℕ
deriving DecidableEq, Repr

/-- Updating an existing row with the `defaults` dictionary: every field
named in the dictionary is overwritten, every other field kept. -/
def applyDefaults (r : MonthlyPayrollRow) (d : PayrollDefaults) : MonthlyPayrollRow :=
  { r with
    totalHours := d.totalHours, specialHours := d.specialHours,
    holidayHours := d.holidayHours, grossPay := d.grossPay,
    commuteAllowance := d.commuteAllowance,
    employmentInsurance := d.employmentInsurance,
    residentTax := d.residentTax, withholdingTax := d.withholdingTax,
    healthInsurance := d.healthInsurance, pension := d.pension }

/-- Creating a fresh row from the key and the `defaults` dictionary; fields
not in the dictionary take the model defaults (`timedelta()` i.e. 0). -/
def newRowFromDefaults (staffId ym : ℕ) (d : PayrollDefaults) : MonthlyPayrollRow :=
  { staffId := staffId, yearMonth := ym,
    totalHours := d.totalHours, normalHours := 0,
    specialHours := d.specialHours, holidayHours := d.holidayHours,
    grossPay := d.grossPay, commuteAllowance := d.commuteAllowance,
    employmentInsurance := d.employmentInsurance,
    residentTax := d.residentTax, withholdingTax := d.withholdingTax,
    healthInsurance := d.healthInsurance, pension := d.pension }

def keyMatches (staffId ym : ℕ) (r : MonthlyPayrollRow) : Bool :=
  decide (r.staffId = staffId ∧ r.yearMonth = ym)

/-- `MonthlyPayroll.objects.update_or_create(staff=..., year_month=...,
defaults=...)` over a table modelled as a list of rows. -/
def updateOrCreate (db : List MonthlyPayrollRow) (staffId ym : ℕ)
    (d : PayrollDefaults) : List MonthlyPayrollRow :=
  if db.any (keyMatches staffId ym) then
    db.map fun r => if keyMatches staffId ym r then applyDefaults r d else r
  else db ++ [newRowFromDefaults staffId ym d]

/-! ## Fixed-salary calculation (`payroll_calculation.py`) -/

def daysBeforeYear (y : ℕ) : ℕ :=
  365 * (y - 1) + (y - 1) / 4 - (y - 1) / 100 + (y - 1) / 400

/-- `datetime.date(y, m, d).toordinal()` (proleptic Gregorian, day 1 is
0001-01-01, a Monday). -/
def toOrdinal (y m d : ℕ) : ℕ :=
  daysBeforeYear y + ((List.range (m - 1)).map fun k => daysInMonth y (k + 1)).sum + d

/-- `datetime.date(y, m, d).weekday()`: 0 = Monday … 6 = Sunday. -/
def weekdayG (y m d : ℕ) : ℕ := (toOrdinal y m d - 1) % 7

/-- `_weekdays_in_month`: count of Mon–Fri days in the month. -/
def weekdaysInMonth (y m : ℕ) : ℕ :=
  ((List.range (daysInMonth y m)).filter fun i => decide (weekdayG y m (i + 1) < 5)).length

/-- Python truthiness fallback `a or b` on an optional count (`0` is falsy). -/
def pyOrNat (a : Option ℕ) (b : ℕ) : ℕ :=
  match a with
  | some n => if n = 0 then b else n
  | none => b

/-- `daily_or_hourly_unit` (payroll_calculation.py).  `tY`/`tM` stand for
`target_date or date.today()`.  Unknown method codes raise `ValueError`. -/
def daily_or_hourly_unit (salary : ℚ) (method : String) (tY tM : ℕ)
    (calendarDays workingDays workingHours : Option ℕ)
    (defaultDailyHours : ℕ) : Except String ℚ :=
  let cd := pyOrNat calendarDays (daysInMonth tY tM)
  let wd := pyOrNat workingDays (weekdaysInMonth tY tM)
  let wh := pyOrNat workingHours (wd * defaultDailyHours)
  let sal := toDecimal2 salary
  if method = "calendar" then .ok (sal / cd)
  else if method = "fixed30" then .ok (sal / 30)
  else if method = "working" then .ok (sal / wd)
  else if method = "working_hour" then .ok (sal / wh)
  else if method = "hourly_avg" then .ok (sal / (1738 / 10))
  else if method = "weekly" then .ok (sal / ((433 / 100) * 5))
  else if method = "nowork" ∨ method = "no_deduct" then .ok (sal / cd)
  else .error ("Unsupported deduction method: " ++ method)

/-- `fixed_salary_pay` (payroll_calculation.py).  The unit is always
computed first (with `working_hours` not forwarded, so the hour methods use
`working_days × 8`); note the no-work-no-pay branch recomputes its
calendar-day fallback from **today's** month (`todayY`/`todayM`). -/
def fixed_salary_pay (salary : ℚ) (method : String)
    (workedDays : Option ℕ) (workedHours : Option ℚ)
    (calendarDays workingDays : Option ℕ)
    (tY tM todayY todayM : ℕ) : Except String ℚ :=
  match daily_or_hourly_unit salary method tY tM calendarDays workingDays none 8 with
  | .error e => .error e
  | .ok unit =>
    let sal := toDecimal2 salary
    if method = "calendar" ∨ method = "fixed30" ∨ method = "working" ∨
        method = "weekly" then
      .ok (unit * (workedDays.getD 0 : ℚ))
    else if method = "working_hour" ∨ method = "hourly_avg" then
      .ok (unit * workedHours.getD 0)
    else if method = "nowork" then
      match workedDays with
      | none => .error "worked_days must be provided for NOWORK_NOPAY method"
      | some wdk =>
        let calDays := pyOrNat calendarDays (daysInMonth todayY todayM)
        .ok (sal - unit * ((calDays : ℤ) - (wdk : ℤ) : ℤ))
    else if method = "no_deduct" then .ok sal
    else .error ("Unsupported deduction method: " ++ method)

/-! ## Concrete fixtures and spec-side comparison definitions -/

/-- Modelled from the spec's words (§3: "named special date ranges (e.g.
New Year, Bon, Golden Week) each with start/end date"; claim C6): the
special ranges with the company's Golden Week range also consulted, for
comparison with `collectSpecialRanges`. -/
def collectSpecialRangesSpec (firstDay lastDay : ℤ) (rows : List SpecialPeriodRow)
    (company : Option PayrollSetting) : List (ℤ × ℤ) :=
  let fromRows := (rows.filter fun sp => decide (sp.start ≤ lastDay ∧ firstDay ≤ sp.stop)).map
    fun sp => (sp.start, sp.stop)
  match company with
  | none => fromRows
  | some c =>
    let pair : Option ℤ → Option ℤ → List (ℤ × ℤ) := fun s e =>
      match s, e with
      | some s, some e => [(s, e)]
      | _, _ => []
    fromRows ++ pair c.newYearFrom c.newYearTo ++ pair c.bonFrom c.bonTo ++
      pair c.gwFrom c.gwTo

/-- Whether a `PyDate` is one Python's `datetime` accepts. -/
def validPyDate (d : PyDate) : Prop :=
  1 ≤ d.year ∧ d.year ≤ 9999 ∧ 1 ≤ d.month ∧ d.month ≤ 12 ∧
    1 ≤ d.day ∧ d.day ≤ daysInMonth d.year d.month

/-- Rows of the `MonthlyPayroll` table matching a (staff, year-month) key. -/
def countKey (db : List MonthlyPayrollRow) (staffId ym : ℕ) : ℕ :=
  (db.filter (keyMatches staffId ym)).length

/-- A configuration with closing day 25 and nothing else set. -/
def company25 : PayrollSetting :=
  { closing := .num 25, specialRate := 27/20, employmentInsRate := 0,
    newYearFrom := none, newYearTo := none, bonFrom := none, bonTo := none,
    gwFrom := none, gwTo := none, weeklyHolidays := [],
    lunchBreakFrom := 43200, lunchBreakTo := 46800 }

/-- The same configuration with closing day 31. -/
def company31 : PayrollSetting := { company25 with closing := .num 31 }

/-- A configuration whose only special date range is a Golden Week range
(ordinals 100–110). -/
def gwCompany : PayrollSetting :=
  { company25 with gwFrom := some 100, gwTo := some 110 }

/-- A persisted row with gross 1000 and commute allowance 100, all five
deduction fields zero. -/
def commuteRow : MonthlyPayrollRow :=
  { staffId := 1, yearMonth := 202503, totalHours := 0, normalHours := 0,
    specialHours := 0, holidayHours := 0, grossPay := 1000,
    commuteAllowance := 100, employmentInsurance := 0, residentTax := 0,
    withholdingTax := 0, healthInsurance := 0, pension := 0 }

/-- A previously persisted row whose `normal_hours` column holds 999 s. -/
def staleRow : MonthlyPayrollRow :=
  { staffId := 1, yearMonth := 202503, totalHours := 0, normalHours := 999,
    specialHours := 0, holidayHours := 0, grossPay := 0,
    commuteAllowance := 0, employmentInsurance := 0, residentTax := 0,
    withholdingTax := 0, healthInsurance := 0, pension := 0 }

/-- Freshly computed values for a recomputation over `staleRow`
(8.5 h = 30600 s at rate 1200: gross 10200). -/
def freshDefaults : PayrollDefaults :=
  { totalHours := 30600, specialHours := 0, holidayHours := 0,
    grossPay := 10200, commuteAllowance := 0, employmentInsurance := 0,
    residentTax := 0, withholdingTax := 0, healthInsurance := 0, pension := 0 }

/-! ## Helper lemmas -/

theorem addToBucket_total (b : DayBuckets) (k : Kind) (td : ℕ) :
    (addToBucket b k td).total = b.total + td := by
  cases k <;> simp [addToBucket, DayBuckets.total] <;> omega

theorem updateAssoc_pos (daily : List (ℤ × DayBuckets)) (day : ℤ) (k : Kind)
    (td : ℕ) (htd : 0 < td) (h : ∀ p ∈ daily, 0 < p.2.total) :
    ∀ p ∈ updateAssoc daily day k td, 0 < p.2.total := by
  induction daily with
  | nil =>
    intro p hp
    simp only [updateAssoc, List.mem_singleton] at hp
    subst hp
    simp only [addToBucket_total]
    omega
  | cons hd tl ih =>
    intro p hp
    rw [updateAssoc] at hp
    by_cases hday : hd.1 = day
    · rw [if_pos hday] at hp
      rcases List.mem_cons.mp hp with h1 | h1
      · subst h1
        have := h hd (List.mem_cons_self _ _)
        simp only [addToBucket_total]
        omega
      · exact h p (List.mem_cons_of_mem _ h1)
    · rw [if_neg hday] at hp
      rcases List.mem_cons.mp hp with h1 | h1
      · subst h1
        exact h hd (List.mem_cons_self _ _)
      · exact ih (fun q hq => h q (List.mem_cons_of_mem _ hq)) p h1

theorem addShift_pos (daily : List (ℤ × DayBuckets)) (day : ℤ) (k : Kind)
    (td : ℕ) (h : ∀ p ∈ daily, 0 < p.2.total) :
    ∀ p ∈ addShift daily day k td, 0 < p.2.total := by
  unfold addShift
  by_cases htd : td = 0
  · rw [if_pos htd]; exact h
  · rw [if_neg htd]; exact updateAssoc_pos daily day k td (Nat.pos_of_ne_zero htd) h

theorem buildDaily_go_pos (shifts : List Shift) (ranges : List (ℤ × ℤ))
    (wH : List ℤ) (lunchFrom lunchTo : ℕ) (acc : List (ℤ × DayBuckets))
    (h : ∀ p ∈ acc, 0 < p.2.total) :
    ∀ p ∈ shifts.foldl
      (fun daily sh =>
        addShift daily sh.cin.day (classifyShift ranges wH sh.cin)
          (adjustedShiftSeconds lunchFrom lunchTo sh.cin sh.cout)) acc,
      0 < p.2.total := by
  induction shifts generalizing acc with
  | nil => exact h
  | cons sh rest ih =>
    intro p hp
    exact ih _ (addShift_pos _ _ _ _ h) p hp

theorem roundHalfUp_nonneg (x : ℚ) (hx : 0 ≤ x) : roundHalfUp x = ⌊x + 1/2⌋ := by
  unfold roundHalfUp
  rw [if_neg (by linarith)]

theorem toDecimal2_intCast (z : ℤ) : toDecimal2 (z : ℚ) = z := by
  unfold toDecimal2 roundHalfUp
  have h : ((z : ℚ) * 100 + 1/2) = ((200 * z + 1 : ℤ) : ℚ) / ((2 : ℕ) : ℚ) := by
    push_cast
    ring
  by_cases hz : (z : ℚ) * 100 < 0
  · have h2 : (-((z : ℚ) * 100) + 1/2) = ((-200 * z + 1 : ℤ) : ℚ) / ((2 : ℕ) : ℚ) := by
      push_cast
      ring
    rw [if_pos hz, h2, Rat.floor_intCast_div_natCast]
    have h3 : (-200 * z + 1) / ((2 : ℕ) : ℤ) = -100 * z := by omega
    rw [h3]
    push_cast
    ring
  · rw [if_neg hz, h, Rat.floor_intCast_div_natCast]
    have h3 : (200 * z + 1) / ((2 : ℕ) : ℤ) = 100 * z := by omega
    rw [h3]
    push_cast
    ring

/-! ## Claim theorems -/

/-- Claim C8: the quarter-hour rounding used for display/monetary input
rounds half-up on the 15-minute quotient (a 15-minute slot is 900 s, so the
quotient of `s` seconds is `s / 900` and its half-up integer rounding is
`(2*s + 900) / 1800`, a quarter-hour count divided by 4 to give hours);
8 h 37 min is exactly 8.50 h and 8 h 45 min exactly 8.75 h, through both
`hours_qtr_decimal` and `_round_qtr` after `_hours`; and `_yen_floor`
truncates toward zero to whole yen. -/
theorem quarter_rounding_half_up_and_yen_floor :
    (∀ s : ℕ, hoursQtrCmd s = (((2 * s + 900) / 1800 : ℕ) : ℚ) / 4) ∧
    hoursQtrCmd 31020 = 17/2 ∧ hoursQtrCmd 31500 = 35/4 ∧
    roundQtr (hoursOfSeconds 31020) = 17/2 ∧
    roundQtr (hoursOfSeconds 31500) = 35/4 ∧
    (∀ x : ℚ, 0 ≤ x → yenFloor x = ⌊x⌋) ∧
    (∀ x : ℚ, yenFloor (-x) = -(yenFloor x)) := by
  refine ⟨?_, ?_, ?_, ?_, ?_, ?_, ?_⟩
  · intro s
    unfold hoursQtrCmd roundQtr
    rw [roundHalfUp_nonneg _ (by positivity)]
    have h : (s : ℚ) / 3600 * 4 + 1/2 = ((2 * s + 900 : ℕ) : ℚ) / ((1800 : ℕ) : ℚ) := by
      push_cast
      ring
    rw [h, Rat.floor_natCast_div_natCast, ← Int.natCast_div, Int.cast_natCast]
  · norm_num [hoursQtrCmd, roundQtr, roundHalfUp]
  · norm_num [hoursQtrCmd, roundQtr, roundHalfUp]
  · norm_num [hoursOfSeconds, quant4he, roundHalfEven, roundQtr, roundHalfUp]
  · norm_num [hoursOfSeconds, quant4he, roundHalfEven, roundQtr, roundHalfUp]
  · intro x hx
    unfold yenFloor
    rw [if_neg (by linarith)]
  · intro x
    unfold yenFloor
    rcases lt_trichotomy x 0 with h | h | h
    · rw [if_neg (by linarith), if_pos h, neg_neg]
    · subst h
      norm_num
    · rw [if_pos (by linarith), if_neg (by linarith), neg_neg]

/-- Claim C9 counterexample: the configured closing-day value 0 is outside
the valid range 1–31, yet `_closing_day` maps it to 1, not 31. -/
theorem closing_day_zero_cex :
    closingDayRaw (.num 0) = 1 ∧ (1 : ℤ) ≠ 31 := by
  constructor
  · rfl
  · decide

/-- Claim C9 (amended): `_closing_day` returns 31 for a missing or
non-numeric closing-day value and clamps numeric values into the range
1–31 (values above 31 become 31, values below 1 become 1, in-range values
are kept); an absent `PayrollSetting` row also yields 31. -/
theorem closing_day_clamp_amended :
    closingDayRaw .missing = 31 ∧ closingDayRaw .nonNumeric = 31 ∧
    (∀ n : ℤ, 31 < n → closingDayRaw (.num n) = 31) ∧
    (∀ n : ℤ, n < 1 → closingDayRaw (.num n) = 1) ∧
    (∀ n : ℤ, 1 ≤ n → n ≤ 31 → closingDayRaw (.num n) = n) ∧
    closingDayOf none = 31 := by
  refine ⟨rfl, rfl, ?_, ?_, ?_, rfl⟩ <;>
    · intros
      simp only [closingDayRaw]
      omega

/-- Claim C3: the flat daily 15-minute (900 s) deduction is drawn in strict
priority order normal → special → holiday — the deducted buckets are
`n - 900`, `s - (900 - n)`, `h - (900 - (n + s))` in truncated natural
subtraction, so each bucket loses at most what it holds, never goes
negative, and exactly `min(total, 900)` is removed in all; the concrete day
normal = 10 min, special = 3 min, holiday = 20 min ends as 0/0/18 min; and
every day present in the per-day map has positive recorded time (a day with
zero recorded time has no bucket, hence no deduction). -/
theorem flat_deduction_priority :
    (∀ b : DayBuckets,
      (flatDeduct b).normal = b.normal - 900 ∧
      (flatDeduct b).special = b.special - (900 - b.normal) ∧
      (flatDeduct b).holiday = b.holiday - (900 - (b.normal + b.special)) ∧
      (flatDeduct b).total = b.total - min b.total 900) ∧
    flatDeduct ⟨600, 180, 1200⟩ = ⟨0, 0, 1080⟩ ∧
    (∀ shifts ranges wH lunchFrom lunchTo,
      ∀ p ∈ buildDaily shifts ranges wH lunchFrom lunchTo, 0 < p.2.total) := by
  refine ⟨?_, by decide, ?_⟩
  · intro b
    obtain ⟨n, s, h⟩ := b
    simp only [flatDeduct, DayBuckets.total]
    omega
  · intro shifts ranges wH lunchFrom lunchTo
    exact buildDaily_go_pos shifts ranges wH lunchFrom lunchTo [] (by simp)

theorem closingDayOf_bounds (c : Option PayrollSetting) :
    1 ≤ closingDayOf c ∧ closingDayOf c ≤ 31 := by
  rcases c with _ | c
  · exact ⟨by decide, by decide⟩
  · rcases h : c.closing with _ | _ | n <;>
      simp [closingDayOf, closingDayRaw, h]

theorem validPyDate_mk (y m d : ℕ) (h1 : 1 ≤ y) (h2 : y ≤ 9999) (h3 : 1 ≤ m)
    (h4 : m ≤ 12) (h5 : 1 ≤ d) (h6 : d ≤ daysInMonth y m) :
    validPyDate ⟨y, m, d⟩ :=
  ⟨h1, h2, h3, h4, h5, h6⟩

theorem dateLt_mk (y1 m1 d1 y2 m2 d2 : ℕ)
    (h : y1 < y2 ∨ (y1 = y2 ∧ (m1 < m2 ∨ (m1 = m2 ∧ d1 < d2)))) :
    dateLt ⟨y1, m1, d1⟩ ⟨y2, m2, d2⟩ := h

theorem daysInMonth_bounds (y m : ℕ) :
    28 ≤ daysInMonth y m ∧ daysInMonth y m ≤ 31 := by
  unfold daysInMonth
  split
  · split <;> omega
  · split <;> omega

theorem mkDatetime_valid (y m d : ℕ) (dt : PyDate)
    (h : mkDatetime y m d = some dt) : validPyDate dt := by
  unfold mkDatetime at h
  split at h
  · cases h
    assumption
  · cases h

theorem resolvePeriod_high (y m : ℕ) (c : Option PayrollSetting)
    (hy1 : 1 ≤ y) (hy2 : y ≤ 9999) (hy3 : m = 12 → y ≤ 9998)
    (hm1 : 1 ≤ m) (hm2 : m ≤ 12) (h28 : 28 ≤ closingDayOf c) :
    resolvePeriod y m c =
      some (⟨y, m, 1⟩, if m = 12 then ⟨y + 1, 1, 1⟩ else ⟨y, m + 1, 1⟩) := by
  have hdm := daysInMonth_bounds y m
  simp only [resolvePeriod]
  rw [if_pos h28]
  have hs : mkDatetime y m 1 = some ⟨y, m, 1⟩ := by
    unfold mkDatetime
    rw [if_pos (by omega)]
  by_cases hm : m = 12
  · subst hm
    have hdm2 := daysInMonth_bounds (y + 1) 1
    have he : mkDatetime (y + 1) 1 1 = some ⟨y + 1, 1, 1⟩ := by
      unfold mkDatetime
      rw [if_pos (by omega)]
    simp [hs, he]
  · have hdm2 := daysInMonth_bounds y (m + 1)
    have he : mkDatetime y (m + 1) 1 = some ⟨y, m + 1, 1⟩ := by
      unfold mkDatetime
      rw [if_pos (by omega)]
    simp [hm, hs, he]

theorem resolvePeriod_low (y m : ℕ) (c : Option PayrollSetting)
    (hy1 : 1 ≤ y) (hy2 : y ≤ 9999) (hy3 : m = 1 → 2 ≤ y)
    (hm1 : 1 ≤ m) (hm2 : m ≤ 12) (hlt : closingDayOf c < 28) :
    resolvePeriod y m c =
      some ((if m = 1 then ⟨y - 1, 12, (closingDayOf c).toNat + 1⟩
             else ⟨y, m - 1, (closingDayOf c).toNat + 1⟩),
            ⟨y, m, (closingDayOf c).toNat + 1⟩) := by
  have hb := closingDayOf_bounds c
  simp only [resolvePeriod]
  rw [if_neg (by omega)]
  have hdm := daysInMonth_bounds y m
  have he : mkDatetime y m ((closingDayOf c).toNat + 1) =
      some ⟨y, m, (closingDayOf c).toNat + 1⟩ := by
    unfold mkDatetime
    rw [if_pos (by omega)]
  by_cases hm : m = 1
  · subst hm
    have hdm2 := daysInMonth_bounds (y - 1) 12
    have hs : mkDatetime (y - 1) 12 ((closingDayOf c).toNat + 1) =
        some ⟨y - 1, 12, (closingDayOf c).toNat + 1⟩ := by
      unfold mkDatetime
      rw [if_pos (by specialize hy3 rfl; omega)]
    simp [hs, he]
  · have hdm2 := daysInMonth_bounds y (m - 1)
    have hs : mkDatetime y (m - 1) ((closingDayOf c).toNat + 1) =
        some ⟨y, m - 1, (closingDayOf c).toNat + 1⟩ := by
      unfold mkDatetime
      rw [if_pos (by omega)]
    simp [hm, hs, he]

/-- Claim C4: with an effective closing day ≥ 28 the billing period for
(year, month) is the calendar month `[1st of month, 1st of next month)`;
otherwise it runs `[closing day + 1 of the previous month, closing day + 1
of the target month)`, both boundaries at local midnight; in particular
2025-03 with closing day 25 resolves to `[2025-02-26, 2025-03-26)`. -/
theorem resolve_period_characterization :
    (∀ (y m : ℕ) (c : Option PayrollSetting), 2 ≤ y → y ≤ 9998 → 1 ≤ m → m ≤ 12 →
      (28 ≤ closingDayOf c →
        resolvePeriod y m c =
          some (⟨y, m, 1⟩, if m = 12 then ⟨y + 1, 1, 1⟩ else ⟨y, m + 1, 1⟩)) ∧
      (closingDayOf c < 28 →
        resolvePeriod y m c =
          some ((if m = 1 then ⟨y - 1, 12, (closingDayOf c).toNat + 1⟩
                 else ⟨y, m - 1, (closingDayOf c).toNat + 1⟩),
                ⟨y, m, (closingDayOf c).toNat + 1⟩))) ∧
    resolvePeriod 2025 3 (some company25) =
      some (⟨2025, 2, 26⟩, ⟨2025, 3, 26⟩) := by
  constructor
  · intro y m c hy1 hy2 hm1 hm2
    exact ⟨resolvePeriod_high y m c (by omega) (by omega) (fun _ => hy2) hm1 hm2,
      resolvePeriod_low y m c (by omega) (by omega) (fun _ => hy1) hm1 hm2⟩
  · decide

/-- Claim C10 counterexample: period resolution is not total for every year
and month — for year 9999, month 12 (a value the six-digit `YYYYMM` format
admits) with closing day 31, the end boundary `datetime(10000, 1, 1)` is
invalid and construction fails. -/
theorem resolve_period_not_total_cex :
    resolvePeriod 9999 12 (some company31) = none := by decide

/-- Claim C10 (amended): for every month 1–12, every closing-day value
whatsoever, and every year from 2 through 9998 (so that the adjacent year
touched by the boundary also lies in Python's `datetime` range 1–9999),
period resolution succeeds, both boundaries are valid calendar dates (the
non-calendar-month branch only runs with an effective closing day ≤ 27, so
its boundary day is ≤ 28 and exists in every month including February), and
the start is strictly before the end. -/
theorem resolve_period_total_amended (y m : ℕ) (c : Option PayrollSetting)
    (hy1 : 2 ≤ y) (hy2 : y ≤ 9998) (hm1 : 1 ≤ m) (hm2 : m ≤ 12) :
    ∃ s e, resolvePeriod y m c = some (s, e) ∧
      validPyDate s ∧ validPyDate e ∧ dateLt s e := by
  have hdm := daysInMonth_bounds y m
  by_cases h28 : 28 ≤ closingDayOf c
  · have hres := resolvePeriod_high y m c (by omega) (by omega) (fun _ => hy2) hm1 hm2 h28
    by_cases hm : m = 12
    · subst hm
      rw [if_pos rfl] at hres
      have hdm2 := daysInMonth_bounds (y + 1) 1
      exact ⟨⟨y, 12, 1⟩, ⟨y + 1, 1, 1⟩, hres,
        validPyDate_mk y 12 1 (by omega) (by omega) (by omega) (by omega)
          (by omega) (by omega),
        validPyDate_mk (y + 1) 1 1 (by omega) (by omega) (by omega) (by omega)
          (by omega) (by omega),
        dateLt_mk y 12 1 (y + 1) 1 1 (by omega)⟩
    · rw [if_neg hm] at hres
      have hdm2 := daysInMonth_bounds y (m + 1)
      exact ⟨⟨y, m, 1⟩, ⟨y, m + 1, 1⟩, hres,
        validPyDate_mk y m 1 (by omega) (by omega) (by omega) (by omega)
          (by omega) (by omega),
        validPyDate_mk y (m + 1) 1 (by omega) (by omega) (by omega) (by omega)
          (by omega) (by omega),
        dateLt_mk y m 1 y (m + 1) 1 (by omega)⟩
  · have hb := closingDayOf_bounds c
    have hres := resolvePeriod_low y m c (by omega) (by omega) (fun _ => hy1) hm1 hm2 (by omega)
    by_cases hm : m = 1
    · subst hm
      rw [if_pos rfl] at hres
      have hdm2 := daysInMonth_bounds (y - 1) 12
      exact ⟨⟨y - 1, 12, (closingDayOf c).toNat + 1⟩, ⟨y, 1, (closingDayOf c).toNat + 1⟩, hres,
        validPyDate_mk (y - 1) 12 _ (by omega) (by omega) (by omega) (by omega)
          (by omega) (by omega),
        validPyDate_mk y 1 _ (by omega) (by omega) (by omega) (by omega)
          (by omega) (by omega),
        dateLt_mk (y - 1) 12 _ y 1 _ (by omega)⟩
    · rw [if_neg hm] at hres
      have hdm2 := daysInMonth_bounds y (m - 1)
      exact ⟨⟨y, m - 1, (closingDayOf c).toNat + 1⟩, ⟨y, m, (closingDayOf c).toNat + 1⟩, hres,
        validPyDate_mk y (m - 1) _ (by omega) (by omega) (by omega) (by omega)
          (by omega) (by omega),
        validPyDate_mk y m _ (by omega) (by omega) (by omega) (by omega)
          (by omega) (by omega),
        dateLt_mk y (m - 1) _ y m _ (by omega)⟩

/-- Claim C10 amended, applied at 2025-02 with closing day 25: resolution
succeeds with valid boundaries in order. -/
theorem resolve_period_total_amended_witness :
    ∃ s e, resolvePeriod 2025 2 (some company25) = some (s, e) ∧
      validPyDate s ∧ validPyDate e ∧ dateLt s e :=
  resolve_period_total_amended 2025 2 (some company25)
    (by norm_num) (by norm_num) (by norm_num) (by norm_num)

/-- Claim C6 counterexample: a check-in whose civil
date lies inside the company's configured Golden Week range (and in no
other range, on no weekly holiday) is classified `normal` by the services
aggregator, while a classifier that honours the Golden Week range (as the
claim describes) yields `special`. -/
theorem classification_ignores_golden_week_cex :
    classifyShift (collectSpecialRanges 100 130 [] (some gwCompany))
        (weeklyHolidaysOf (some gwCompany)) ⟨105, 32400⟩ = .normal ∧
    classifyShift (collectSpecialRangesSpec 100 130 [] (some gwCompany))
        (weeklyHolidaysOf (some gwCompany)) ⟨105, 32400⟩ = .special ∧
    Kind.normal ≠ Kind.special := by
  refine ⟨by decide, by decide, by decide⟩

/-- Claim C6 (amended): every shift is classified into exactly one category
from the civil date of its check-in alone — `special` iff that date falls
in one of the collected ranges, else `holiday` iff its weekday is in the
weekly-holiday set, else `normal` — and the per-day bucket key is the
check-in's date (so a midnight-spanning check-out is irrelevant to both);
but the ranges collected by the services aggregator are the `SpecialPeriod`
rows plus the company's New Year and Bon ranges only: its result is
invariant under the company's Golden Week fields. -/
theorem classification_amended :
    (∀ (ranges : List (ℤ × ℤ)) (wH : List ℤ) (cin : LocalDT),
      (classifyShift ranges wH cin = .special ↔
        ∃ r ∈ ranges, r.1 ≤ cin.day ∧ cin.day ≤ r.2) ∧
      (classifyShift ranges wH cin = .holiday ↔
        (¬ ∃ r ∈ ranges, r.1 ≤ cin.day ∧ cin.day ≤ r.2) ∧
          weekdayOfOrdinal cin.day ∈ wH) ∧
      (classifyShift ranges wH cin = .normal ↔
        (¬ ∃ r ∈ ranges, r.1 ≤ cin.day ∧ cin.day ≤ r.2) ∧
          weekdayOfOrdinal cin.day ∉ wH)) ∧
    (∀ firstDay lastDay rows (c : PayrollSetting) gf gt2,
      collectSpecialRanges firstDay lastDay rows
        (some { c with gwFrom := gf, gwTo := gt2 }) =
      collectSpecialRanges firstDay lastDay rows (some c)) ∧
    (∀ ranges wH lunchFrom lunchTo (cin cout : LocalDT),
      ∀ p ∈ buildDaily [⟨cin, cout⟩] ranges wH lunchFrom lunchTo,
        p.1 = cin.day) := by
  refine ⟨?_, ?_, ?_⟩
  · intro ranges wH cin
    unfold classifyShift
    by_cases h1 : ∃ r ∈ ranges, r.1 ≤ cin.day ∧ cin.day ≤ r.2
    · simp [h1]
    · by_cases h2 : weekdayOfOrdinal cin.day ∈ wH
      · simp [h1, h2]
      · simp [h1, h2]
  · intro firstDay lastDay rows c gf gt2
    rfl
  · intro ranges wH lunchFrom lunchTo cin cout p hp
    simp only [buildDaily, List.foldl_cons, List.foldl_nil, addShift] at hp
    split at hp
    · cases hp
    · rw [updateAssoc] at hp
      rcases List.mem_singleton.mp hp with rfl
      rfl

theorem yenFloor_zero : yenFloor 0 = 0 := by norm_num [yenFloor]

theorem hoursOfSeconds_zero : hoursOfSeconds 0 = 0 := by
  norm_num [hoursOfSeconds, quant4he, roundHalfEven]

theorem roundQtr_zero : roundQtr 0 = 0 := by
  norm_num [roundQtr, roundHalfUp]

theorem buildMoney_hourly_gross (rate : ℕ) (d : WorkDurations)
    (c : Option PayrollSetting) :
    (buildMoney ⟨"hourly", some rate, none⟩ none c d true).gross =
      yenFloor ((rate : ℚ) * roundQtr (hoursOfSeconds d.total)) := by
  simp [buildMoney, infoYen, yenFloor_zero]

theorem hourlyGrossSpec_normal_only (rate mult : ℚ) (n : ℕ) :
    hourlyGrossSpec rate mult ⟨n, 0, 0⟩ =
      yenFloor (rate * roundQtr (hoursOfSeconds n)) := by
  simp [hourlyGrossSpec, hoursOfSeconds_zero, roundQtr_zero, yenFloor_zero]

/-- Claim C1 counterexample: an hourly staff member with rate 1000,
special-rate multiplier 1.35, and a period holding one rounded special hour
and nothing else.  `build_monthly_payroll` prices the rounded total at the
plain rate, gross 1000; the claimed per-category computation (each category
rounded, special multiplied by the special rate, floored per category,
summed) gives 1350. -/
theorem hourly_gross_ignores_special_rate_cex :
    (buildMoney ⟨"hourly", some 1000, none⟩ none (some gwCompany)
        ⟨0, 3600, 0⟩ true).gross = 1000 ∧
    hourlyGrossSpec 1000 gwCompany.specialRate ⟨0, 3600, 0⟩ = 1350 ∧
    (1000 : ℤ) ≠ 1350 := by
  have e0 : hoursOfSeconds 3600 = 1 := by
    norm_num [hoursOfSeconds, quant4he, roundHalfEven]
  have e1 : roundQtr 1 = 1 := by
    norm_num [roundQtr, roundHalfUp]
  have e3 : gwCompany.specialRate = 27/20 := rfl
  refine ⟨?_, ?_, by decide⟩
  · rw [buildMoney_hourly_gross]
    norm_num [WorkDurations.total, e0, e1, yenFloor]
  · show yenFloor (1000 * roundQtr (hoursOfSeconds 0)) +
        yenFloor (1000 * roundQtr (hoursOfSeconds 3600) * gwCompany.specialRate) +
        yenFloor (1000 * roundQtr (hoursOfSeconds 0) * gwCompany.specialRate) = 1350
    rw [hoursOfSeconds_zero, roundQtr_zero, e0, e1, e3]
    norm_num [yenFloor]

/-- Claim C1 (amended): for hourly staff, `build_monthly_payroll` computes
gross as one floor of the hourly rate times the quarter-rounded **total**
hours — the special-rate multiplier is read but applied to nothing and the
special/holiday pay components are the constant 0 — so it agrees with the
claimed per-category rule exactly when the special and holiday durations
are zero (the per-category rule itself appears only in the hourly branch of
`payroll_recalc_daily`, `hourlyGrossCmd`, whose guard in the command
compares `wage_type` to the `WageType` class and is never satisfied). -/
theorem hourly_gross_total_hours_amended :
    (∀ (rate : ℕ) (d : WorkDurations) (c : Option PayrollSetting),
      (buildMoney ⟨"hourly", some rate, none⟩ none c d true).gross =
        yenFloor ((rate : ℚ) * roundQtr (hoursOfSeconds d.total))) ∧
    (∀ (rate mult : ℚ) (n : ℕ),
      hourlyGrossSpec rate mult ⟨n, 0, 0⟩ =
        yenFloor (rate * roundQtr (hoursOfSeconds n))) ∧
    (∀ (rate : ℕ) (mult : ℚ) (n : ℕ) (c : Option PayrollSetting),
      (buildMoney ⟨"hourly", some rate, none⟩ none c ⟨n, 0, 0⟩ true).gross =
        hourlyGrossSpec (rate : ℚ) mult ⟨n, 0, 0⟩) := by
  refine ⟨buildMoney_hourly_gross, hourlyGrossSpec_normal_only, ?_⟩
  intro rate mult n c
  rw [buildMoney_hourly_gross rate ⟨n, 0, 0⟩ c, hourlyGrossSpec_normal_only (rate : ℚ) mult n]
  norm_num [WorkDurations.total]

/-- Claim C2 counterexample: a persisted record with gross 1000, commute
allowance 100 and all five deductions zero.  The claim's formula gives net
1000, but `MonthlyPayroll.net_pay` yields 900: the commute allowance is
subtracted when deriving net pay. -/
theorem net_pay_subtracts_commute_cex :
    commuteRow.netPay = 900 ∧
    ((commuteRow.grossPay : ℤ) -
      ((commuteRow.employmentInsurance : ℤ) + commuteRow.healthInsurance +
        commuteRow.pension + commuteRow.residentTax +
        commuteRow.withholdingTax)) = 1000 ∧
    (900 : ℤ) ≠ 1000 := by
  refine ⟨by decide, by decide, by decide⟩

/-- Claim C2 (amended): the net computed inside `build_monthly_payroll`
does equal gross minus the sum of employment insurance, health insurance,
pension, resident tax and withholding tax (commute not subtracted), but
that value is never persisted; the record's `net_pay` property, which every
consumer reads, additionally subtracts the commute allowance. -/
theorem net_pay_formula_amended :
    (∀ (staff : StaffPay) (info : Option PayrollInfoRec)
        (c : Option PayrollSetting) (d : WorkDurations) (flag : Bool),
      (buildMoney staff info c d flag).net =
        (buildMoney staff info c d flag).gross -
          ((buildMoney staff info c d flag).employmentIns +
            (buildMoney staff info c d flag).health +
            (buildMoney staff info c d flag).pension +
            (buildMoney staff info c d flag).residentTax +
            (buildMoney staff info c d flag).withholding)) ∧
    (∀ r : MonthlyPayrollRow,
      r.netPay = (r.grossPay : ℤ) -
        ((r.employmentInsurance : ℤ) + r.healthInsurance + r.pension +
          r.residentTax + r.withholdingTax) - (r.commuteAllowance : ℤ)) := by
  constructor
  · intro staff info c d flag
    rfl
  · intro r
    unfold MonthlyPayrollRow.netPay MonthlyPayrollRow.socialInsurance
    push_cast
    ring

theorem filter_length_map_upsert (f : MonthlyPayrollRow → Bool)
    (g : MonthlyPayrollRow → MonthlyPayrollRow)
    (hg : ∀ r, f (g r) = f r) (db : List MonthlyPayrollRow) :
    ((db.map fun r => if f r then g r else r).filter f).length =
      (db.filter f).length := by
  induction db with
  | nil => rfl
  | cons hd tl ih =>
    by_cases hf : f hd = true
    · simp [hf, hg, ih]
    · simp [List.filter_cons, hf, ih]

theorem countKey_updateOrCreate (db : List MonthlyPayrollRow)
    (sid ym : ℕ) (d : PayrollDefaults) :
    countKey (updateOrCreate db sid ym d) sid ym =
      if countKey db sid ym = 0 then 1 else countKey db sid ym := by
  unfold updateOrCreate
  by_cases hany : db.any (keyMatches sid ym) = true
  · rw [if_pos hany]
    have hpos : countKey db sid ym ≠ 0 := by
      rcases List.any_eq_true.mp hany with ⟨r, hr, hfr⟩
      have hmem : r ∈ db.filter (keyMatches sid ym) := List.mem_filter.mpr ⟨hr, hfr⟩
      unfold countKey
      intro h0
      rw [List.length_eq_zero] at h0
      rw [h0] at hmem
      cases hmem
    rw [if_neg hpos]
    unfold countKey
    exact filter_length_map_upsert (keyMatches sid ym) (fun r => applyDefaults r d)
      (fun r => rfl) db
  · rw [if_neg hany]
    have hzero : countKey db sid ym = 0 := by
      unfold countKey
      rw [List.length_eq_zero, List.filter_eq_nil_iff]
      intro r hr hfr
      exact hany (List.any_eq_true.mpr ⟨r, hr, hfr⟩)
    rw [if_pos hzero]
    unfold countKey
    rw [List.filter_append, List.length_append]
    have hnew : keyMatches sid ym (newRowFromDefaults sid ym d) = true := by
      simp [keyMatches, newRowFromDefaults]
    unfold countKey at hzero
    simp [hnew, hzero]

/-- Claim C5 counterexample: recomputation over a stored row whose
`normal_hours` column holds 999 s, with freshly computed values whose
normal duration is 30600 s.  After the upsert the row still shows
`normal_hours` = 999: the `defaults` dictionary of `build_monthly_payroll`
carries no `normal_hours` entry, so not every duration field is replaced. -/
theorem upsert_keeps_stale_normal_hours_cex :
    (updateOrCreate [staleRow] 1 202503 freshDefaults).map
        (fun r => r.normalHours) = [999] ∧
    (updateOrCreate [staleRow] 1 202503 freshDefaults).map
        (fun r => r.totalHours) = [30600] ∧
    (999 : ℕ) ≠ 30600 := by
  refine ⟨by decide, by decide, by decide⟩

/-- Claim C5 (amended): the upsert is keyed by (staff, year-month) and
never duplicates — it yields exactly one row for the key when the table
held at most one — and replaces the total/special/holiday durations, gross
pay, commute allowance and all five deduction fields with the freshly
computed values, while the `normal_hours` duration column is *not* in the
`defaults` dictionary: an existing row keeps its prior value (a newly
created row gets the model default 0). -/
theorem upsert_amended :
    (∀ (r : MonthlyPayrollRow) (d : PayrollDefaults),
      (applyDefaults r d).staffId = r.staffId ∧
      (applyDefaults r d).yearMonth = r.yearMonth ∧
      (applyDefaults r d).totalHours = d.totalHours ∧
      (applyDefaults r d).specialHours = d.specialHours ∧
      (applyDefaults r d).holidayHours = d.holidayHours ∧
      (applyDefaults r d).grossPay = d.grossPay ∧
      (applyDefaults r d).commuteAllowance = d.commuteAllowance ∧
      (applyDefaults r d).employmentInsurance = d.employmentInsurance ∧
      (applyDefaults r d).residentTax = d.residentTax ∧
      (applyDefaults r d).withholdingTax = d.withholdingTax ∧
      (applyDefaults r d).healthInsurance = d.healthInsurance ∧
      (applyDefaults r d).pension = d.pension ∧
      (applyDefaults r d).normalHours = r.normalHours) ∧
    (∀ (sid ym : ℕ) (d : PayrollDefaults),
      (newRowFromDefaults sid ym d).staffId = sid ∧
      (newRowFromDefaults sid ym d).yearMonth = ym ∧
      (newRowFromDefaults sid ym d).normalHours = 0) ∧
    (∀ (db : List MonthlyPayrollRow) (sid ym : ℕ) (d : PayrollDefaults),
      countKey (updateOrCreate db sid ym d) sid ym =
        if countKey db sid ym = 0 then 1 else countKey db sid ym) := by
  refine ⟨?_, ?_, countKey_updateOrCreate⟩
  · intro r d
    exact ⟨rfl, rfl, rfl, rfl, rfl, rfl, rfl, rfl, rfl, rfl, rfl, rfl, rfl⟩
  · intro sid ym d
    exact ⟨rfl, rfl, rfl⟩

/-- Claim C7: for every whole-yen monthly salary, `fixed_salary_pay`
divides the salary by the denominator selected by the deduction method —
calendar days of the target month; the constant 30; the weekday count of
the target month; the weekday count times the default 8 daily hours; the
constant 173.8; 4.33 × 5 — multiplies day-denominator units by worked days
and hour-denominator units by worked hours, computes no-work-no-pay as
salary minus the calendar-day unit times absent days (absent = calendar
days of **today's** month minus worked days), and returns the salary
exactly unchanged for the no-deduction method, whatever the attendance. -/
theorem fixed_salary_pay_characterization :
    (∀ (z : ℤ) (wdk : ℕ) (whrs : Option ℚ) (tY tM tdY tdM : ℕ),
      fixed_salary_pay (z : ℚ) "calendar" (some wdk) whrs none none tY tM tdY tdM =
        .ok ((z : ℚ) / (daysInMonth tY tM : ℚ) * (wdk : ℚ))) ∧
    (∀ (z : ℤ) (wdk : ℕ) (whrs : Option ℚ) (tY tM tdY tdM : ℕ),
      fixed_salary_pay (z : ℚ) "fixed30" (some wdk) whrs none none tY tM tdY tdM =
        .ok ((z : ℚ) / 30 * (wdk : ℚ))) ∧
    (∀ (z : ℤ) (wdk : ℕ) (whrs : Option ℚ) (tY tM tdY tdM : ℕ),
      fixed_salary_pay (z : ℚ) "working" (some wdk) whrs none none tY tM tdY tdM =
        .ok ((z : ℚ) / (weekdaysInMonth tY tM : ℚ) * (wdk : ℚ))) ∧
    (∀ (z : ℤ) (wdk : ℕ) (whrs : ℚ) (tY tM tdY tdM : ℕ),
      fixed_salary_pay (z : ℚ) "working_hour" (some wdk) (some whrs) none none tY tM tdY tdM =
        .ok ((z : ℚ) / ((weekdaysInMonth tY tM * 8 : ℕ) : ℚ) * whrs)) ∧
    (∀ (z : ℤ) (wdk : ℕ) (whrs : ℚ) (tY tM tdY tdM : ℕ),
      fixed_salary_pay (z : ℚ) "hourly_avg" (some wdk) (some whrs) none none tY tM tdY tdM =
        .ok ((z : ℚ) / (1738/10) * whrs)) ∧
    (∀ (z : ℤ) (wdk : ℕ) (whrs : Option ℚ) (tY tM tdY tdM : ℕ),
      fixed_salary_pay (z : ℚ) "weekly" (some wdk) whrs none none tY tM tdY tdM =
        .ok ((z : ℚ) / (433/100 * 5) * (wdk : ℚ))) ∧
    (∀ (z : ℤ) (wdk : ℕ) (whrs : Option ℚ) (tY tM tdY tdM : ℕ),
      fixed_salary_pay (z : ℚ) "nowork" (some wdk) whrs none none tY tM tdY tdM =
        .ok ((z : ℚ) - (z : ℚ) / (daysInMonth tY tM : ℚ) *
          (((daysInMonth tdY tdM : ℤ) - (wdk : ℤ) : ℤ) : ℚ))) ∧
    (∀ (z : ℤ) (wdk : Option ℕ) (whrs : Option ℚ) (cd wd : Option ℕ) (tY tM tdY tdM : ℕ),
      fixed_salary_pay (z : ℚ) "no_deduct" wdk whrs cd wd tY tM tdY tdM =
        .ok (z : ℚ)) := by
  refine ⟨?_, ?_, ?_, ?_, ?_, ?_, ?_, ?_⟩ <;>
    · intros
      simp [fixed_salary_pay, daily_or_hourly_unit, pyOrNat, toDecimal2_intCast]

end Payroll
